import Mathlib

/-!
Verification development for the `liststore` repository (src/edgestore.py).

The file shallowly embeds the sharded edge store: the four persistent tables
(`edgedata`, `edgemeta`, `edgeindex`, `colo`) are modelled as lists of rows, and
the per-connection driver state (the last-insert-id register, the affected-rows
counter) plus the process-local `lastAddWasOverwrite` flag are carried in an
explicit `ShardState`.  Each SQL string constant of `EdgeStoreShard` is
translated into a state transformer (`runAddSQL`, `runAddOverwriteSQL`, ...)
following the MySQL semantics the code relies on (documented in the spec's
driver contract, section 6): an upsert reports 1 affected row for an insert and
2 for an update, and `LAST_INSERT_ID(expr)` both assigns the per-connection
register and evaluates to `expr`.  Python-level failures (assert statements,
duplicate-key errors, unresolved names, missing attributes) are modelled with
`Except PyErr`; a failure inside a `with db.transaction()` block rolls the four
tables back to their state at transaction entry while connection- and
process-local fields (register, affected rows, overwrite flag) keep their
current values, which is how MySQL and Python behave.

Identifiers, revisions, counters and index values are `Nat`; edge payloads are
`String`; `edgemeta.count` is `Int` (the code adds `-1` to it on delete).
-/

/-- Python-level errors surfaced by the embedded operations. -/
inductive PyErr where
  | nameError
  | attributeError
  | typeError
  | integrityError
  | assertionError
deriving Repr, DecidableEq

/-- A row of the `edgedata` table: primary key `(edgetype, gid1, gid2)`. -/
structure EdgeRow where
  edgetype : Nat
  gid1 : Nat
  gid2 : Nat
  revision : Nat
  encoding : Nat
  data : String
deriving Repr, DecidableEq

/-- A row of the `edgemeta` table: primary key `(edgetype, gid1)`. -/
structure MetaRow where
  edgetype : Nat
  gid1 : Nat
  revision : Nat
  count : Int
deriving Repr, DecidableEq

/-- A row of the `edgeindex` table. -/
structure IndexRow where
  indextype : Nat
  indexvalue : Nat
  gid1 : Nat
  revision : Nat
deriving Repr, DecidableEq

/-- A row of the `colo` table: primary key `colo`. -/
structure ColoRow where
  colo : Nat
  counter : Nat
deriving Repr, DecidableEq

/-- State visible to one `EdgeStoreShard`: the four tables of its database,
the per-connection driver registers, the Python-object flag
`lastAddWasOverwrite` (edgestore.py:102), and whether a driver transaction
opened by the facade's `lock` is ongoing. -/
structure ShardState where
  edges : List EdgeRow
  metas : List MetaRow
  index : List IndexRow
  colos : List ColoRow
  lastInsertID : Nat
  affectedRows : Nat
  lastAddWasOverwrite : Bool
  inTx : Bool
deriving Repr, DecidableEq

/-- The empty shard state: fresh tables, cleared registers, flag as set by
`EdgeStoreShard.__init__` (edgestore.py:100-102). -/
def shardState0 : ShardState :=
  { edges := [], metas := [], index := [], colos := [],
    lastInsertID := 0, affectedRows := 0,
    lastAddWasOverwrite := false, inTx := false }

/-- Primary-key lookup in `edgemeta`: first row with the given
`(edgetype, gid1)`. -/
def findMeta : List MetaRow → Nat → Nat → Option MetaRow
  | [], _, _ => none
  | m :: ms, et, g1 =>
      if m.edgetype == et && m.gid1 == g1 then some m else findMeta ms et g1

/-- Primary-key lookup in `edgedata`: first row with the given
`(edgetype, gid1, gid2)`. -/
def findEdge : List EdgeRow → Nat → Nat → Nat → Option EdgeRow
  | [], _, _, _ => none
  | e :: es, et, g1, g2 =>
      if e.edgetype == et && e.gid1 == g1 && e.gid2 == g2 then some e
      else findEdge es et g1 g2

/-- Primary-key lookup in `colo`. -/
def findColo : List ColoRow → Nat → Option ColoRow
  | [], _ => none
  | c :: cs, colo => if c.colo == colo then some c else findColo cs colo

/-- Number of `edgeindex` rows at a given `(indextype, indexvalue)`; this is
what `_uniqueIndexSQL` (edgestore.py:135-139) selects. -/
def countIndexRows : List IndexRow → Nat → Nat → Nat
  | [], _, _ => 0
  | r :: rs, it, iv =>
      (if r.indextype == it && r.indexvalue == iv then 1 else 0)
        + countIndexRows rs it iv

/-- Rows left in `edgeindex` after `_deleteIndexSQL` (edgestore.py:141-146)
removes every row at `(indextype, gid1, revision)`. -/
def deleteIndexRows (it g1 rev : Nat) : List IndexRow → List IndexRow
  | [] => []
  | r :: rs =>
      if r.indextype == it && r.gid1 == g1 && r.revision == rev
      then deleteIndexRows it g1 rev rs
      else r :: deleteIndexRows it g1 rev rs

/-- Number of `edgeindex` rows matched (hence deleted) by `_deleteIndexSQL`. -/
def countDeletedIndexRows (it g1 rev : Nat) : List IndexRow → Nat
  | [] => 0
  | r :: rs =>
      (if r.indextype == it && r.gid1 == g1 && r.revision == rev then 1 else 0)
        + countDeletedIndexRows it g1 rev rs

/-- The `ON DUPLICATE KEY UPDATE revision = LAST_INSERT_ID(revision + 1)`
branch of `_incrementRevisionSQL` (edgestore.py:330-336): every `edgemeta` row
at the primary key gets the new revision (the key is unique, so at most one row
matches in any state MySQL can produce). -/
def updateMetaRevisionList (et g1 rev : Nat) (ms : List MetaRow) : List MetaRow :=
  ms.map (fun m =>
    if m.edgetype == et && m.gid1 == g1 then { m with revision := rev } else m)

/-- The `UPDATE edgemeta SET count = count + %s` statement
`_incrementCountSQL` (edgestore.py:342-346). -/
def updateMetaCountList (et g1 : Nat) (inc : Int) (ms : List MetaRow) : List MetaRow :=
  ms.map (fun m =>
    if m.edgetype == et && m.gid1 == g1 then { m with count := m.count + inc } else m)

/-- Effect of `_incrementRevisionSQL` (edgestore.py:330-336): upsert on
`edgemeta` that initialises `(revision, count)` to `(1, 0)` on first write,
otherwise sets `revision := revision + 1`; either way `LAST_INSERT_ID(·)`
stores the new revision in the per-connection register. -/
def runIncrementRevisionSQL (et g1 : Nat) (s : ShardState) : ShardState :=
  match findMeta s.metas et g1 with
  | none =>
      { s with metas := ⟨et, g1, 1, 0⟩ :: s.metas,
               lastInsertID := 1, affectedRows := 1 }
  | some m =>
      { s with metas := updateMetaRevisionList et g1 (m.revision + 1) s.metas,
               lastInsertID := m.revision + 1, affectedRows := 2 }

/-- Method `EdgeStoreShard._incrementRevision` (edgestore.py:338-340): run the upsert,
then return `getLastInsertID()`. -/
def EdgeStoreShard.incrementRevision (et g1 : Nat) (s : ShardState) : Nat × ShardState :=
  let s' := runIncrementRevisionSQL et g1 s
  (s'.lastInsertID, s')

/-- Method `EdgeStoreShard._incrementCount` (edgestore.py:348-349). -/
def EdgeStoreShard.incrementCount (et g1 : Nat) (inc : Int) (s : ShardState) : ShardState :=
  { s with metas := updateMetaCountList et g1 inc s.metas }

/-- Effect of `_addSQL` (edgestore.py:117-121): plain INSERT into `edgedata`;
a primary-key collision raises an integrity error; on success the
`LAST_INSERT_ID(%s)` in the VALUES clause stores the new revision in the
register and one row is affected. -/
def runAddSQL (row : EdgeRow) (s : ShardState) : Except PyErr ShardState :=
  match findEdge s.edges row.edgetype row.gid1 row.gid2 with
  | some _ => .error .integrityError
  | none =>
      .ok { s with edges := row :: s.edges,
                   lastInsertID := row.revision, affectedRows := 1 }

/-- The update applied by the `ON DUPLICATE KEY UPDATE` clause of
`_addOverwriteSQL` (edgestore.py:123-133): assignments run left to right, so
`revision = LAST_INSERT_ID(revision)` first stores the row's previous revision
in the register, then `revision = VALUES(revision)`, `encoding`, `data`
overwrite the row with the freshly inserted values. -/
def overwriteEdgeList (row : EdgeRow) (es : List EdgeRow) : List EdgeRow :=
  es.map (fun e =>
    if e.edgetype == row.edgetype && e.gid1 == row.gid1 && e.gid2 == row.gid2
    then { e with revision := row.revision, encoding := row.encoding, data := row.data }
    else e)

/-- Effect of `_addOverwriteSQL` (edgestore.py:123-133): insert-or-update on
`edgedata`.  Fresh key: behaves like `_addSQL` (1 affected row, register :=
new revision).  Key collision: the register gets the previous revision and the
row is overwritten; MySQL reports 2 affected rows, or 0 when the update leaves
every column unchanged. -/
def runAddOverwriteSQL (row : EdgeRow) (s : ShardState) : ShardState :=
  match findEdge s.edges row.edgetype row.gid1 row.gid2 with
  | none =>
      { s with edges := row :: s.edges,
               lastInsertID := row.revision, affectedRows := 1 }
  | some old =>
      { s with edges := overwriteEdgeList row s.edges,
               lastInsertID := old.revision,
               affectedRows :=
                 if old.revision == row.revision && old.encoding == row.encoding
                     && old.data == row.data
                 then 0 else 2 }

/-- Effect of `_addIndexSQL` (edgestore.py:148-152): INSERT into `edgeindex`
(the table has no unique key, so the insert always succeeds). -/
def runAddIndexSQL (it iv g1 rev : Nat) (s : ShardState) : ShardState :=
  { s with index := ⟨it, iv, g1, rev⟩ :: s.index, affectedRows := 1 }

/-- Effect of `_deleteIndexSQL` (edgestore.py:141-146). -/
def runDeleteIndexSQL (it g1 rev : Nat) (s : ShardState) : ShardState :=
  { s with index := deleteIndexRows it g1 rev s.index,
           affectedRows := countDeletedIndexRows it g1 rev s.index }

/-- Effect of `_deleteSQL` (edgestore.py:189-195): DELETE from `edgedata` by
primary key; the `revision = LAST_INSERT_ID(revision)` condition stores the
deleted row's revision in the register (and is true of the row); when no row
matches, the register is left untouched. -/
def runDeleteSQL (et g1 g2 : Nat) (s : ShardState) : ShardState :=
  match findEdge s.edges et g1 g2 with
  | none => { s with affectedRows := 0 }
  | some old =>
      { s with
          edges := s.edges.filter
            (fun e => !(e.edgetype == et && e.gid1 == g1 && e.gid2 == g2)),
          lastInsertID := old.revision,
          affectedRows := 1 }

/-- Rollback of the `with self._db.transaction()` scope: the four tables
return to their state at transaction entry (`orig`); the per-connection
registers and the Python-object flag are not transactional and keep their
current (`cur`) values. -/
def rollbackTables (orig cur : ShardState) : ShardState :=
  { cur with edges := orig.edges, metas := orig.metas,
             index := orig.index, colos := orig.colos }

/-- The `for indextype, indexvalue, unique in indices` loop of
`EdgeStoreShard.add` (edgestore.py:175-185).  `affected` and `prevRev` are the
Python locals captured before the loop.  For each entry: if the edge statement
updated an existing row, delete the old index rows at
`(indextype, gid1, prev_revision)`; if `unique`, run `_uniqueIndexSQL` and
fail when the count at `(indextype, indexvalue)` is nonzero; finally insert
the new index row at `(indextype, indexvalue, gid1, revision)`. -/
def addIndexLoop (g1 revision prevRev affected : Nat) :
    List (Nat × Nat × Bool) → ShardState → Except PyErr Unit × ShardState
  | [], s => (.ok (), s)
  | (it, iv, u) :: rest, s =>
      let s1 := if affected == 2 then runDeleteIndexSQL it g1 prevRev s else s
      if u && (countIndexRows s1.index it iv != 0)
      then (.error .assertionError, s1)
      else addIndexLoop g1 revision prevRev affected rest (runAddIndexSQL it iv g1 revision s1)

/-- Method `EdgeStoreShard.add` (edgestore.py:154-187), in transaction: issue a new
revision, run the (overwrite) insert, read the affected-rows counter and the
stashed register; on the insert path increment the edge count and assert the
stash equals the new revision; on the update path record
`lastAddWasOverwrite = true` and assert the stash equals the new revision
minus 1; then maintain the secondary indices; any failure rolls the tables
back. -/
def EdgeStoreShard.add (et g1 g2 enc : Nat) (dat : String)
    (indices : List (Nat × Nat × Bool)) (overwrite : Bool) (s : ShardState) :
    Except PyErr EdgeRow × ShardState :=
  let p := EdgeStoreShard.incrementRevision et g1 s
  let revision := p.1
  let s1 := p.2
  let row : EdgeRow := ⟨et, g1, g2, revision, enc, dat⟩
  match (if overwrite then Except.ok (runAddOverwriteSQL row s1) else runAddSQL row s1) with
  | .error e => (.error e, rollbackTables s s1)
  | .ok s2 =>
      let affected := s2.affectedRows
      let prev := s2.lastInsertID
      if affected == 1 then
        let s3 := EdgeStoreShard.incrementCount et g1 1 s2
        if prev == revision then
          match addIndexLoop g1 revision prev affected indices s3 with
          | (.error e, s4) => (.error e, rollbackTables s s4)
          | (.ok _, s4) => (.ok row, s4)
        else (.error .assertionError, rollbackTables s s3)
      else if affected == 2 then
        let s3 := { s2 with lastAddWasOverwrite := true }
        if prev == revision - 1 then
          match addIndexLoop g1 revision prev affected indices s3 with
          | (.error e, s4) => (.error e, rollbackTables s s4)
          | (.ok _, s4) => (.ok row, s4)
        else (.error .assertionError, rollbackTables s s3)
      else
        match addIndexLoop g1 revision prev affected indices s2 with
        | (.error e, s4) => (.error e, rollbackTables s s4)
        | (.ok _, s4) => (.ok row, s4)

/-- Method `EdgeStoreShard.delete` (edgestore.py:199-219), in transaction: advance the
revision, run `_deleteSQL`, fetch the stashed revision with
`SELECT LAST_INSERT_ID()`; when a row was deleted, decrement the edge count,
assert the stashed revision is truthy and delete the index rows named by
`indextypes` at the deleted revision; return whether one row was affected. -/
def EdgeStoreShard.delete (et g1 g2 : Nat) (indextypes : List Nat) (s : ShardState) :
    Except PyErr Bool × ShardState :=
  let s1 := (EdgeStoreShard.incrementRevision et g1 s).2
  let s2 := runDeleteSQL et g1 g2 s1
  let affected := s2.affectedRows
  let delRevision := s2.lastInsertID
  if affected != 0 then
    let s3 := EdgeStoreShard.incrementCount et g1 (-1) s2
    if delRevision == 0 then (.error .assertionError, rollbackTables s s3)
    else
      let s4 := indextypes.foldl (fun st it => runDeleteIndexSQL it g1 delRevision st) s3
      (.ok (affected == 1), s4)
  else (.ok (affected == 1), s2)

/-- Method `EdgeStoreShard.count` (edgestore.py:319-321): the stored `edgemeta.count`,
or 0 when the row is absent. -/
def EdgeStoreShard.count (et g1 : Nat) (s : ShardState) : Int :=
  match findMeta s.metas et g1 with
  | some m => m.count
  | none => 0

/-- The stored `edgemeta.revision` for a parent, or 0 when the row is absent
(observer used to state revision claims). -/
def metaRevision (et g1 : Nat) (s : ShardState) : Nat :=
  match findMeta s.metas et g1 with
  | some m => m.revision
  | none => 0

/-- Python truthiness of an optional integer argument (`if gid1 and indextype:`
treats both `None` and `0` as false). -/
def truthy : Option Nat → Bool
  | none => false
  | some n => n != 0

/-- Ordering used by `ORDER BY edgeindex.indexvalue, edgeindex.revision DESC`
(edgestore.py:243,259): ascending index value, descending revision. -/
def indexLE (a b : IndexRow) : Bool :=
  Nat.blt a.indexvalue b.indexvalue
    || (a.indexvalue == b.indexvalue && Nat.ble b.revision a.revision)

/-- Insertion step of the sort realising the ORDER BY clause. -/
def insertIndexRow (x : IndexRow) : List IndexRow → List IndexRow
  | [] => [x]
  | y :: ys => if indexLE x y then x :: y :: ys else y :: insertIndexRow x ys

/-- Sort `edgeindex` rows by `(indexvalue asc, revision desc)`. -/
def sortIndexRows : List IndexRow → List IndexRow
  | [] => []
  | x :: xs => insertIndexRow x (sortIndexRows xs)

/-- Ordering used by `ORDER BY revision DESC` (edgestore.py:227). -/
def edgeRevGE (a b : EdgeRow) : Bool :=
  Nat.ble b.revision a.revision

/-- Insertion step of the sort realising `ORDER BY revision DESC`. -/
def insertEdgeRow (x : EdgeRow) : List EdgeRow → List EdgeRow
  | [] => [x]
  | y :: ys => if edgeRevGE x y then x :: y :: ys else y :: insertEdgeRow x ys

/-- Sort `edgedata` rows by descending revision. -/
def sortEdgesByRevDesc : List EdgeRow → List EdgeRow
  | [] => []
  | x :: xs => insertEdgeRow x (sortEdgesByRevDesc xs)

/-- The join of `_listIndexSQL` (edgestore.py:230-244) for one `edgeindex`
row: `edgedata` rows with the requested `(edgetype, gid1)` whose revision
equals the index row's revision.  Note the ON clause constrains only
`edgeindex.revision` — it never compares `edgeindex.gid1` with the requested
parent. -/
def listIndexJoin (et g1 : Nat) (edges : List EdgeRow) : List IndexRow → List EdgeRow
  | [] => []
  | ix :: rest =>
      edges.filter (fun e =>
        e.edgetype == et && e.gid1 == g1 && e.revision == ix.revision)
        ++ listIndexJoin et g1 edges rest

/-- Effect of `_listIndexSQL` (edgestore.py:230-244): scan `edgeindex` rows of
the given `indextype` with `indexvalue BETWEEN lo AND hi`, order them by
`(indexvalue asc, revision desc)`, and join each to the `edgedata` rows with
the requested `(edgetype, gid1)` and a matching revision. -/
def runListIndexSQL (et g1 it lo hi : Nat) (s : ShardState) : List EdgeRow :=
  listIndexJoin et g1 s.edges
    (sortIndexRows (s.index.filter (fun ix =>
      ix.indextype == it && Nat.ble lo ix.indexvalue && Nat.ble ix.indexvalue hi)))

/-- Effect of `_listSQL` (edgestore.py:222-228): all `edgedata` rows with the
given `(edgetype, gid1)`, ordered by descending revision. -/
def runListSQL (et g1 : Nat) (s : ShardState) : List EdgeRow :=
  sortEdgesByRevDesc (s.edges.filter (fun e => e.edgetype == et && e.gid1 == g1))

/-- The join of `_searchIndexSQL` (edgestore.py:246-260) for one `edgeindex`
row: here the ON clause does match both the index row's `gid1` and its
`revision` against `edgedata`. -/
def searchIndexJoin (et : Nat) (edges : List EdgeRow) : List IndexRow → List EdgeRow
  | [] => []
  | ix :: rest =>
      edges.filter (fun e =>
        e.edgetype == et && e.gid1 == ix.gid1 && e.revision == ix.revision)
        ++ searchIndexJoin et edges rest

/-- Effect of `_searchIndexSQL` (edgestore.py:246-260). -/
def runSearchIndexSQL (et it lo hi : Nat) (s : ShardState) : List EdgeRow :=
  searchIndexJoin et s.edges
    (sortIndexRows (s.index.filter (fun ix =>
      ix.indextype == it && Nat.ble lo ix.indexvalue && Nat.ble ix.indexvalue hi)))

/-- Method `EdgeStoreShard.query` (edgestore.py:262-275): with truthy `gid1` and
`indextype` run `_listIndexSQL`; with only `gid1` run `_listSQL`; otherwise
run `_searchIndexSQL`.  Unpacking `indexrange` when it is `None` raises a
`TypeError`, as in Python. -/
def EdgeStoreShard.query (et : Nat) (indextype : Option Nat)
    (indexrange : Option (Nat × Nat)) (gid1 : Option Nat) (s : ShardState) :
    Except PyErr (List EdgeRow) :=
  if truthy gid1 && truthy indextype then
    match indexrange with
    | none => .error .typeError
    | some (lo, hi) => .ok (runListIndexSQL et (gid1.getD 0) (indextype.getD 0) lo hi s)
  else if truthy gid1 then
    .ok (runListSQL et (gid1.getD 0) s)
  else
    match indexrange with
    | none => .error .typeError
    | some (lo, hi) => .ok (runSearchIndexSQL et (indextype.getD 0) lo hi s)

/-- Names defined at module scope of edgestore.py: the four imports and the
two classes.  A bare name inside a method body resolves against local, module
and builtin scope only — class attributes such as `_generateGidSQL` are not in
that path. -/
def moduleGlobals : List String :=
  ["chain", "DB", "DATABASE_HOSTS", "contextmanager", "EdgeStore", "EdgeStoreShard"]

/-- Effect of `_generateGidSQL` (edgestore.py:105-111): upsert on `colo` that
inserts `(colo, start)` (storing `start` in the register via
`LAST_INSERT_ID(%s)`) or, on duplicate key, sets
`counter = LAST_INSERT_ID(counter + 1)`. -/
def runGenerateGidSQL (colo start : Nat) (s : ShardState) : ShardState :=
  match findColo s.colos colo with
  | none =>
      { s with colos := ⟨colo, start⟩ :: s.colos,
               lastInsertID := start, affectedRows := 1 }
  | some c =>
      { s with colos := s.colos.map (fun r =>
                  if r.colo == colo then { r with counter := c.counter + 1 } else r),
               lastInsertID := c.counter + 1, affectedRows := 2 }

/-- Method `EdgeStoreShard.generateGid` (edgestore.py:113-115).  The body runs
`self._db.run(_generateGidSQL, colo, start)` with the bare name
`_generateGidSQL`; that name is resolved at module scope, where it does not
exist, so the call raises `NameError` before any SQL runs.  Had the name
resolved, the method would run the upsert and return
`(colo << 32) + getLastInsertID()`. -/
def EdgeStoreShard.generateGid (colo start : Nat) (s : ShardState) :
    Except PyErr Nat × ShardState :=
  if moduleGlobals.contains "_generateGidSQL" then
    let s1 := runGenerateGidSQL colo start s
    (.ok ((colo <<< 32) + s1.lastInsertID), s1)
  else (.error .nameError, s)

/-- Method `EdgeStoreShard.lock` (edgestore.py:323-325): assert an ongoing
transaction, then `generateGid(colo, start=0)` as a row-lock probe. -/
def EdgeStoreShard.lock (colo : Nat) (s : ShardState) : Except PyErr Nat × ShardState :=
  if s.inTx then EdgeStoreShard.generateGid colo 0 s
  else (.error .assertionError, s)

/-- Method `EdgeStore.colo` (edgestore.py:27-28). -/
def EdgeStore.colo (gid : Nat) : Nat := gid >>> 32

/-- Attribute names resolvable on an `EdgeStore` instance: the class body's
attributes and methods (edgestore.py:6-96) plus the instance attributes bound
in `__init__` (edgestore.py:21-25).  `NUM_HOSTS` is not among them — the class
attribute is spelled `_NUM_HOSTS` — so `self.NUM_HOSTS` raises
`AttributeError`. -/
def EdgeStore.instanceAttrs : List String :=
  ["_MAX_COLO_ID", "_NUM_HOSTS", "_instances", "getInstance", "colo",
   "generateGid", "add", "delete", "query", "get", "count", "insideLock",
   "isLocked", "lock", "_getShard", "_getColoShard", "_getHostShard",
   "_dbname", "_shards", "_locked_colos", "lastAddWasOverwrite"]

/-- Method `EdgeStore._getColoShard` (edgestore.py:88-89): compute the host index
`colo % self.NUM_HOSTS`.  The attribute lookup `self.NUM_HOSTS` fails
(the defined attribute is `_NUM_HOSTS`), so every call raises
`AttributeError` before reaching a shard. -/
def EdgeStore.getColoShardHostIndex (numHosts colo : Nat) : Except PyErr Nat :=
  if EdgeStore.instanceAttrs.contains "NUM_HOSTS" then .ok (colo % numHosts)
  else .error .attributeError

/-- The mirroring assignment of `EdgeStore.add` (edgestore.py:41):
`self.lastAddWasOverwrite = shard.lastAddWasOverwrite` — the facade flag
becomes whatever the shard flag is. -/
def EdgeStore.mirrorAddFlag (_facadeFlag shardFlag : Bool) : Bool :=
  shardFlag

/-- Registry backing `EdgeStore._instances` (edgestore.py:12): a map from
dbname to the identity of the stored instance, plus a counter allocating a
fresh identity for each `EdgeStore(dbname)` construction. -/
structure StoreRegistry where
  instances : List (String × Nat)
  nextId : Nat
deriving Repr, DecidableEq

/-- The process-start registry: `_instances = {}` and no objects allocated. -/
def registry0 : StoreRegistry := { instances := [], nextId := 0 }

/-- Method `EdgeStore.getInstance` (edgestore.py:14-19): look the dbname up in
`_instances`; when absent, construct a fresh `EdgeStore(dbname)` and return
it.  The constructed instance is returned but never stored back into
`_instances`. -/
def EdgeStore.getInstance (dbname : String) (reg : StoreRegistry) :
    Nat × StoreRegistry :=
  match reg.instances.lookup dbname with
  | some i => (i, reg)
  | none => (reg.nextId, { reg with nextId := reg.nextId + 1 })

/-- State visible to the `EdgeStore` facade for `lock`: the set of currently
locked colocations (`_locked_colos`, a list used as a set), the shard state
behind the colocation, and a counter of driver transactions opened so far. -/
structure FacadeState where
  lockedColos : List Nat
  shard : ShardState
  txCount : Nat
deriving Repr, DecidableEq

/-- Method `EdgeStore.lock` (edgestore.py:70-83) as a context manager applied to a
caller body: a nested entry (`colo in self._locked_colos`) just yields — the
body runs with `None` bound and nothing else happens.  An outer entry adds
`colo` to `_locked_colos`, resolves the shard (which raises `AttributeError`
at `self.NUM_HOSTS`), would open a transaction and yield `shard.lock(colo)`,
and in all cases removes `colo` from `_locked_colos` in the `finally`
clause; a body failure rolls the shard transaction back. -/
def EdgeStore.lock {α : Type} (numHosts colo : Nat)
    (body : Option Nat → FacadeState → Except PyErr α × FacadeState)
    (st : FacadeState) : Except PyErr α × FacadeState :=
  if st.lockedColos.contains colo then
    body none st
  else
    let st1 : FacadeState := { st with lockedColos := colo :: st.lockedColos }
    let inner : Except PyErr α × FacadeState :=
      match EdgeStore.getColoShardHostIndex numHosts colo with
      | .error e => (.error e, st1)
      | .ok _ =>
          let st2 : FacadeState :=
            { st1 with txCount := st1.txCount + 1,
                       shard := { st1.shard with inTx := true } }
          match EdgeStoreShard.lock colo st2.shard with
          | (.error e, sh) =>
              (.error e,
               { st2 with shard := rollbackTables st1.shard { sh with inTx := false } })
          | (.ok gid, sh) =>
              match body (some gid) { st2 with shard := sh } with
              | (.ok r, st4) =>
                  (.ok r, { st4 with shard := { st4.shard with inTx := false } })
              | (.error e, st4) =>
                  (.error e,
                   { st4 with shard := rollbackTables st1.shard { st4.shard with inTx := false } })
    (inner.1, { inner.2 with lockedColos := inner.2.lockedColos.erase colo })

/-- Return values of `n` successive `_incrementRevision` calls for one
`(edgetype, gid1)`, threading the shard state. -/
def iterRev (et g1 : Nat) : Nat → ShardState → List Nat × ShardState
  | 0, s => ([], s)
  | n + 1, s =>
      let p := EdgeStoreShard.incrementRevision et g1 s
      let q := iterRev et g1 n p.2
      (p.1 :: q.1, q.2)

/-! ### Helper lemmas about the table primitives -/

theorem findMeta_updateMetaRevisionList (et g1 rev : Nat) (ms : List MetaRow) :
    findMeta (updateMetaRevisionList et g1 rev ms) et g1
      = (findMeta ms et g1).map (fun m => { m with revision := rev }) := by
  induction ms with
  | nil => rfl
  | cons m ms ih =>
      by_cases h : (m.edgetype == et && m.gid1 == g1) = true
      · simp [updateMetaRevisionList, findMeta, h]
      · simp only [updateMetaRevisionList, List.map_cons] at ih ⊢
        rw [if_neg h]
        simp only [findMeta]
        rw [if_neg h, if_neg h]
        exact ih

theorem findMeta_updateMetaCountList (et g1 : Nat) (inc : Int) (ms : List MetaRow) :
    findMeta (updateMetaCountList et g1 inc ms) et g1
      = (findMeta ms et g1).map (fun m => { m with count := m.count + inc }) := by
  induction ms with
  | nil => rfl
  | cons m ms ih =>
      by_cases h : (m.edgetype == et && m.gid1 == g1) = true
      · simp [updateMetaCountList, findMeta, h]
      · simp only [updateMetaCountList, List.map_cons] at ih ⊢
        rw [if_neg h]
        simp only [findMeta]
        rw [if_neg h, if_neg h]
        exact ih

theorem findEdge_overwriteEdgeList (row : EdgeRow) (es : List EdgeRow) :
    findEdge (overwriteEdgeList row es) row.edgetype row.gid1 row.gid2
      = (findEdge es row.edgetype row.gid1 row.gid2).map
          (fun e => { e with revision := row.revision,
                             encoding := row.encoding, data := row.data }) := by
  induction es with
  | nil => rfl
  | cons e es ih =>
      by_cases h : (e.edgetype == row.edgetype && e.gid1 == row.gid1
          && e.gid2 == row.gid2) = true
      · simp [overwriteEdgeList, findEdge, h]
      · simp only [overwriteEdgeList, List.map_cons] at ih ⊢
        rw [if_neg h]
        simp only [findEdge]
        rw [if_neg h, if_neg h]
        exact ih

theorem incrementRevision_of_none (et g1 : Nat) (s : ShardState)
    (h : findMeta s.metas et g1 = none) :
    EdgeStoreShard.incrementRevision et g1 s
      = (1, { s with metas := ⟨et, g1, 1, 0⟩ :: s.metas,
                     lastInsertID := 1, affectedRows := 1 }) := by
  simp [EdgeStoreShard.incrementRevision, runIncrementRevisionSQL, h]

theorem incrementRevision_of_some (et g1 : Nat) (s : ShardState) (m : MetaRow)
    (h : findMeta s.metas et g1 = some m) :
    EdgeStoreShard.incrementRevision et g1 s
      = (m.revision + 1,
         { s with metas := updateMetaRevisionList et g1 (m.revision + 1) s.metas,
                  lastInsertID := m.revision + 1, affectedRows := 2 }) := by
  simp [EdgeStoreShard.incrementRevision, runIncrementRevisionSQL, h]

theorem iterRev_of_some (et g1 : Nat) :
    ∀ (n : Nat) (s : ShardState) (m : MetaRow),
      findMeta s.metas et g1 = some m →
      (iterRev et g1 n s).1 = List.range' (m.revision + 1) n := by
  intro n
  induction n with
  | zero => intro s m _; rfl
  | succ n ih =>
      intro s m h
      have h1 := incrementRevision_of_some et g1 s m h
      have hfst : (EdgeStoreShard.incrementRevision et g1 s).1 = m.revision + 1 := by
        rw [h1]
      have h2 : findMeta (EdgeStoreShard.incrementRevision et g1 s).2.metas et g1
          = some { m with revision := m.revision + 1 } := by
        rw [h1]
        simp [findMeta_updateMetaRevisionList, h]
      have h3 := ih (EdgeStoreShard.incrementRevision et g1 s).2
        { m with revision := m.revision + 1 } h2
      simp only [iterRev, hfst, h3]
      rw [List.range'_succ]

/-! ### Claim theorems -/

/-- C1: for every `(edgetype, gid1)`, `_incrementRevision` is the strictly
increasing revision source starting at 1: the first call initialises the
`EdgeMeta` row with revision 1 and count 0 and returns 1, every later call
returns the stored revision plus 1, the returned value is exactly the
last-insert-id register, and `n` successive calls from a fresh parent return
exactly `1, 2, ..., n`. -/
theorem c1_incrementRevision_protocol (et g1 : Nat) (s : ShardState) :
    (findMeta s.metas et g1 = none →
        (EdgeStoreShard.incrementRevision et g1 s).1 = 1
      ∧ findMeta (EdgeStoreShard.incrementRevision et g1 s).2.metas et g1
          = some ⟨et, g1, 1, 0⟩)
  ∧ (∀ m, findMeta s.metas et g1 = some m →
        (EdgeStoreShard.incrementRevision et g1 s).1 = m.revision + 1)
  ∧ (EdgeStoreShard.incrementRevision et g1 s).1
      = (EdgeStoreShard.incrementRevision et g1 s).2.lastInsertID
  ∧ (findMeta s.metas et g1 = none →
      ∀ n, (iterRev et g1 n s).1 = List.range' 1 n) := by
  refine ⟨?_, ?_, rfl, ?_⟩
  · intro h
    rw [incrementRevision_of_none et g1 s h]
    exact ⟨rfl, by simp [findMeta]⟩
  · intro m h
    rw [incrementRevision_of_some et g1 s m h]
  · intro h n
    cases n with
    | zero => rfl
    | succ n =>
        have h1 := incrementRevision_of_none et g1 s h
        have hfst : (EdgeStoreShard.incrementRevision et g1 s).1 = 1 := by rw [h1]
        have h2 : findMeta (EdgeStoreShard.incrementRevision et g1 s).2.metas et g1
            = some ⟨et, g1, 1, 0⟩ := by
          rw [h1]; simp [findMeta]
        have h3 := iterRev_of_some et g1 n
          (EdgeStoreShard.incrementRevision et g1 s).2 ⟨et, g1, 1, 0⟩ h2
        simp only [iterRev, hfst, h3]
        rw [List.range'_succ]

/-- Witness for C1 on a concrete fresh shard. -/
theorem c1_incrementRevision_protocol_witness :
    (EdgeStoreShard.incrementRevision 7 1 shardState0).1 = 1
  ∧ (iterRev 7 1 3 shardState0).1 = List.range' 1 3 :=
  ⟨((c1_incrementRevision_protocol 7 1 shardState0).1 rfl).1,
   (c1_incrementRevision_protocol 7 1 shardState0).2.2.2 rfl 3⟩

/-- C6: deleting a missing edge returns `false`, leaves the edge and index
tables untouched, leaves `EdgeMeta.count` unchanged, and still advances the
revision of `(edgetype, gid1)` by 1. -/
theorem c6_delete_missing_edge (et g1 g2 : Nat) (its : List Nat) (s : ShardState)
    (h : findEdge s.edges et g1 g2 = none) :
    ∃ s', EdgeStoreShard.delete et g1 g2 its s = (.ok false, s')
      ∧ s'.edges = s.edges ∧ s'.index = s.index
      ∧ EdgeStoreShard.count et g1 s' = EdgeStoreShard.count et g1 s
      ∧ metaRevision et g1 s' = metaRevision et g1 s + 1 := by
  cases hm : findMeta s.metas et g1 with
  | none =>
      refine ⟨{ s with metas := ⟨et, g1, 1, 0⟩ :: s.metas,
                       lastInsertID := 1, affectedRows := 0 }, ?_, rfl, rfl, ?_, ?_⟩
      · simp [EdgeStoreShard.delete, EdgeStoreShard.incrementRevision,
              runIncrementRevisionSQL, hm, runDeleteSQL, h]
      · simp [EdgeStoreShard.count, findMeta, hm]
      · simp [metaRevision, findMeta, hm]
  | some m =>
      refine ⟨{ s with metas := updateMetaRevisionList et g1 (m.revision + 1) s.metas,
                       lastInsertID := m.revision + 1, affectedRows := 0 }, ?_, rfl, rfl, ?_, ?_⟩
      · simp [EdgeStoreShard.delete, EdgeStoreShard.incrementRevision,
              runIncrementRevisionSQL, hm, runDeleteSQL, h]
      · simp [EdgeStoreShard.count, findMeta_updateMetaRevisionList, hm]
      · simp [metaRevision, findMeta_updateMetaRevisionList, hm]

/-- Witness for C6 on a concrete fresh shard. -/
theorem c6_delete_missing_edge_witness :
    ∃ s', EdgeStoreShard.delete 7 1 2 [] shardState0 = (.ok false, s')
      ∧ s'.edges = shardState0.edges ∧ s'.index = shardState0.index
      ∧ EdgeStoreShard.count 7 1 s' = EdgeStoreShard.count 7 1 shardState0
      ∧ metaRevision 7 1 s' = metaRevision 7 1 shardState0 + 1 :=
  c6_delete_missing_edge 7 1 2 [] shardState0 rfl

theorem findEdge_some_keys (es : List EdgeRow) (et g1 g2 : Nat) (e : EdgeRow)
    (h : findEdge es et g1 g2 = some e) :
    e.edgetype = et ∧ e.gid1 = g1 ∧ e.gid2 = g2 := by
  induction es with
  | nil => cases h
  | cons a as ih =>
      by_cases hc : (a.edgetype == et && a.gid1 == g1 && a.gid2 == g2) = true
      · simp only [findEdge] at h
        rw [if_pos hc] at h
        cases h
        simp only [Bool.and_eq_true, beq_iff_eq] at hc
        exact ⟨hc.1.1, hc.1.2, hc.2⟩
      · simp only [findEdge] at h
        rw [if_neg hc] at h
        exact ih h

/-- C2 (amended): overwriting the parent's most recently mutated edge — an
existing edge whose revision equals the stored `EdgeMeta` revision — succeeds,
advances the edge to the newly issued revision, overwrites encoding and data,
leaves the count and the index table unchanged, sets `lastAddWasOverwrite`,
and the stashed previous revision equals the new revision minus 1. -/
theorem c2_overwrite_latest_edge (et g1 g2 enc : Nat) (dat : String) (s : ShardState)
    (old : EdgeRow) (m : MetaRow)
    (hedge : findEdge s.edges et g1 g2 = some old)
    (hmeta : findMeta s.metas et g1 = some m)
    (hlatest : old.revision = m.revision) :
    ∃ s', EdgeStoreShard.add et g1 g2 enc dat [] true s
        = (.ok ⟨et, g1, g2, m.revision + 1, enc, dat⟩, s')
      ∧ findEdge s'.edges et g1 g2 = some ⟨et, g1, g2, m.revision + 1, enc, dat⟩
      ∧ EdgeStoreShard.count et g1 s' = EdgeStoreShard.count et g1 s
      ∧ s'.lastAddWasOverwrite = true
      ∧ s'.lastInsertID + 1 = m.revision + 1
      ∧ metaRevision et g1 s' = m.revision + 1
      ∧ s'.index = s.index := by
  obtain ⟨hket, hkg1, hkg2⟩ := findEdge_some_keys _ _ _ _ _ hedge
  obtain ⟨oet, og1, og2, orev, oenc, odat⟩ := old
  simp only at hket hkg1 hkg2 hlatest
  subst oet og1 og2 orev
  refine ⟨{ s with
      edges := overwriteEdgeList ⟨et, g1, g2, m.revision + 1, enc, dat⟩ s.edges,
      metas := updateMetaRevisionList et g1 (m.revision + 1) s.metas,
      lastInsertID := m.revision, affectedRows := 2,
      lastAddWasOverwrite := true }, ?_, ?_, ?_, rfl, rfl, ?_, rfl⟩
  · simp [EdgeStoreShard.add, EdgeStoreShard.incrementRevision,
          runIncrementRevisionSQL, hmeta, runAddOverwriteSQL, hedge, addIndexLoop]
  · have hfe := findEdge_overwriteEdgeList ⟨et, g1, g2, m.revision + 1, enc, dat⟩ s.edges
    simp only at hfe
    rw [hfe, hedge]
    rfl
  · simp [EdgeStoreShard.count, findMeta_updateMetaRevisionList, hmeta]
  · simp [metaRevision, findMeta_updateMetaRevisionList, hmeta]

/-- Concrete state with two edges under parent `(7, 1)`: edge `(7,1,2)` at
revision 1, edge `(7,1,3)` at revision 2, stored meta revision 2. -/
def sC2 : ShardState :=
  { edges := [⟨7, 1, 2, 1, 1, "x"⟩, ⟨7, 1, 3, 2, 1, "x"⟩],
    metas := [⟨7, 1, 2, 2⟩], index := [], colos := [],
    lastInsertID := 0, affectedRows := 0,
    lastAddWasOverwrite := false, inTx := false }

/-- C2 counterexample: edge `(7,1,2)` exists, yet `add` with `overwrite=true`
on that key raises the prev-revision assertion (the stashed previous revision
is 1 while the newly issued revision is 3), so the overwrite does not succeed
even sequentially — the claim's universal statement fails. -/
theorem c2_overwrite_counterexample :
    findEdge sC2.edges 7 1 2 = some ⟨7, 1, 2, 1, 1, "x"⟩
  ∧ (EdgeStoreShard.add 7 1 2 1 "y" [] true sC2).1 = .error .assertionError :=
  ⟨rfl, rfl⟩

/-- Witness for the amended C2 on a concrete single-edge parent. -/
theorem c2_overwrite_latest_edge_witness :
    ∃ s', EdgeStoreShard.add 7 1 2 1 "y" [] true
        { edges := [⟨7, 1, 2, 1, 1, "x"⟩], metas := [⟨7, 1, 1, 1⟩],
          index := [], colos := [], lastInsertID := 0, affectedRows := 0,
          lastAddWasOverwrite := false, inTx := false }
        = (.ok ⟨7, 1, 2, 2, 1, "y"⟩, s')
      ∧ findEdge s'.edges 7 1 2 = some ⟨7, 1, 2, 2, 1, "y"⟩
      ∧ EdgeStoreShard.count 7 1 s'
          = EdgeStoreShard.count 7 1
              { edges := [⟨7, 1, 2, 1, 1, "x"⟩], metas := [⟨7, 1, 1, 1⟩],
                index := [], colos := [], lastInsertID := 0, affectedRows := 0,
                lastAddWasOverwrite := false, inTx := false }
      ∧ s'.lastAddWasOverwrite = true
      ∧ s'.lastInsertID + 1 = 1 + 1
      ∧ metaRevision 7 1 s' = 1 + 1
      ∧ s'.index
          = ShardState.index
              { edges := [⟨7, 1, 2, 1, 1, "x"⟩], metas := [⟨7, 1, 1, 1⟩],
                index := [], colos := [], lastInsertID := 0, affectedRows := 0,
                lastAddWasOverwrite := false, inTx := false } :=
  c2_overwrite_latest_edge 7 1 2 1 "y" _ ⟨7, 1, 2, 1, 1, "x"⟩ ⟨7, 1, 1, 1⟩ rfl rfl rfl

theorem mem_deleteIndexRows (it g1 rev : Nat) (row : IndexRow) :
    ∀ rs : List IndexRow, row ∈ rs →
      ¬(row.indextype = it ∧ row.gid1 = g1 ∧ row.revision = rev) →
      row ∈ deleteIndexRows it g1 rev rs := by
  intro rs
  induction rs with
  | nil => intro h _; cases h
  | cons r rs ih =>
      intro hmem hne
      by_cases hc : (r.indextype == it && r.gid1 == g1 && r.revision == rev) = true
      · simp only [deleteIndexRows]
        rw [if_pos hc]
        rcases List.mem_cons.mp hmem with heq | htl
        · exfalso
          apply hne
          subst heq
          simp only [Bool.and_eq_true, beq_iff_eq] at hc
          exact ⟨hc.1.1, hc.1.2, hc.2⟩
        · exact ih htl hne
      · simp only [deleteIndexRows]
        rw [if_neg hc]
        rcases List.mem_cons.mp hmem with heq | htl
        · exact heq ▸ List.mem_cons_self _ _
        · exact List.mem_cons_of_mem _ (ih htl hne)

theorem countIndexRows_pos (it iv : Nat) (row : IndexRow) :
    ∀ rs : List IndexRow, row ∈ rs → row.indextype = it → row.indexvalue = iv →
      countIndexRows rs it iv ≠ 0 := by
  intro rs
  induction rs with
  | nil => intro h; cases h
  | cons r rs ih =>
      intro hmem h1 h2
      rcases List.mem_cons.mp hmem with heq | htl
      · subst heq
        simp [countIndexRows, h1, h2]
      · have ht := ih htl h1 h2
        by_cases hc : (r.indextype == it && r.indexvalue == iv) = true
        · simp [countIndexRows, hc]
        · simp [countIndexRows, hc, ht]

theorem addIndexLoop_blocked (g1 revision prevRev affected it iv : Nat) (wrow : IndexRow)
    (hit : wrow.indextype = it) (hiv : wrow.indexvalue = iv)
    (hexcl : affected = 2 → ¬(wrow.gid1 = g1 ∧ wrow.revision = prevRev)) :
    ∀ (indices : List (Nat × Nat × Bool)) (s : ShardState),
      (it, iv, true) ∈ indices → wrow ∈ s.index →
      ∃ e s', addIndexLoop g1 revision prevRev affected indices s = (.error e, s') := by
  intro indices
  induction indices with
  | nil => intro s h; cases h
  | cons x rest ih =>
      obtain ⟨jt, jv, ju⟩ := x
      intro s hmem hrow
      simp only [addIndexLoop]
      have hrow1 : wrow ∈ (if affected == 2 then runDeleteIndexSQL jt g1 prevRev s else s).index := by
        by_cases ha : (affected == 2) = true
        · rw [if_pos ha]
          have ha2 : affected = 2 := by simpa [beq_iff_eq] using ha
          exact mem_deleteIndexRows jt g1 prevRev wrow s.index hrow
            (fun h3 => (hexcl ha2) ⟨h3.2.1, h3.2.2⟩)
        · rw [if_neg ha]
          exact hrow
      by_cases hb : (ju && (countIndexRows
          (if affected == 2 then runDeleteIndexSQL jt g1 prevRev s else s).index jt jv != 0)) = true
      · rw [if_pos hb]
        exact ⟨.assertionError, _, rfl⟩
      · rw [if_neg hb]
        rcases List.mem_cons.mp hmem with heq | htl
        · exfalso
          rw [Prod.mk.injEq, Prod.mk.injEq] at heq
          obtain ⟨h1, h2, h3⟩ := heq
          have hcnt := countIndexRows_pos it iv wrow _ hrow1 hit hiv
          apply hb
          rw [← h1, ← h2, ← h3]
          rw [← h1] at hcnt
          simpa using hcnt
        · exact ih (runAddIndexSQL jt jv g1 revision _)
            htl (List.mem_cons_of_mem _ hrow1)

theorem incRev_state_tables (et g1 : Nat) (s : ShardState) :
    ((EdgeStoreShard.incrementRevision et g1 s).2).edges = s.edges
  ∧ ((EdgeStoreShard.incrementRevision et g1 s).2).index = s.index
  ∧ ((EdgeStoreShard.incrementRevision et g1 s).2).colos = s.colos
  ∧ ((EdgeStoreShard.incrementRevision et g1 s).2).lastAddWasOverwrite
      = s.lastAddWasOverwrite := by
  simp only [EdgeStoreShard.incrementRevision, runIncrementRevisionSQL]
  cases hx : findMeta s.metas et g1 <;> simp [hx]

theorem addStatement_spec (row : EdgeRow) (s1 : ShardState) (overwrite : Bool)
    (s2 : ShardState)
    (h : (if overwrite then Except.ok (runAddOverwriteSQL row s1) else runAddSQL row s1)
          = Except.ok s2) :
    s2.index = s1.index ∧ s2.metas = s1.metas ∧ s2.colos = s1.colos
  ∧ s2.lastAddWasOverwrite = s1.lastAddWasOverwrite
  ∧ (s2.affectedRows = 2 →
      ∃ old, findEdge s1.edges row.edgetype row.gid1 row.gid2 = some old
        ∧ s2.lastInsertID = old.revision) := by
  cases overwrite with
  | false =>
      simp only [Bool.false_eq_true, if_false] at h
      unfold runAddSQL at h
      cases hfe : findEdge s1.edges row.edgetype row.gid1 row.gid2 with
      | some old => rw [hfe] at h; cases h
      | none =>
          rw [hfe] at h
          cases h
          refine ⟨rfl, rfl, rfl, rfl, fun h2 => by simp at h2⟩
  | true =>
      simp only [if_true] at h
      cases h
      unfold runAddOverwriteSQL
      cases hfe : findEdge s1.edges row.edgetype row.gid1 row.gid2 with
      | none =>
          refine ⟨rfl, rfl, rfl, rfl, fun h2 => by simp at h2⟩
      | some old =>
          refine ⟨rfl, rfl, rfl, rfl, fun _ => ⟨old, rfl, rfl⟩⟩

/-- C3 (amended): when an `add` carries a unique-flagged
`(indextype, indexvalue)` and `edgeindex` holds a row at that pair other than
the rows at `(indextype, gid1, previous-revision)` that the overwrite path
deletes, the `add` fails and the transaction rolls back: no table changes
survive, so no new index row is inserted; consequently a consistently
unique-flagged pair appears in `edgeindex` at most once. -/
theorem c3_unique_violation_rolls_back (et g1 g2 enc : Nat) (dat : String)
    (indices : List (Nat × Nat × Bool)) (overwrite : Bool) (s : ShardState)
    (it iv : Nat) (wrow : IndexRow)
    (hmem : (it, iv, true) ∈ indices)
    (hrow : wrow ∈ s.index) (hit : wrow.indextype = it) (hiv : wrow.indexvalue = iv)
    (hexcl : ∀ old, findEdge s.edges et g1 g2 = some old →
        ¬(wrow.gid1 = g1 ∧ wrow.revision = old.revision)) :
    ∃ e s', EdgeStoreShard.add et g1 g2 enc dat indices overwrite s = (.error e, s')
      ∧ s'.edges = s.edges ∧ s'.metas = s.metas
      ∧ s'.index = s.index ∧ s'.colos = s.colos := by
  obtain ⟨hedges1, hindex1, hcolos1, hflag1⟩ := incRev_state_tables et g1 s
  simp only [EdgeStoreShard.add]
  split
  · exact ⟨_, _, rfl, rfl, rfl, rfl, rfl⟩
  · next s2 heq =>
      obtain ⟨hidx2, hmet2, hcol2, hflag2, haff2⟩ := addStatement_spec _ _ _ _ heq
      have hrow2 : wrow ∈ s2.index := by
        rw [hidx2, hindex1]; exact hrow
      have hexcl2 : s2.affectedRows = 2 →
          ¬(wrow.gid1 = g1 ∧ wrow.revision = s2.lastInsertID) := by
        intro ha2 hpair
        obtain ⟨old, hfe, hreg⟩ := haff2 ha2
        rw [hedges1] at hfe
        exact hexcl old hfe ⟨hpair.1, hpair.2.trans hreg⟩
      split
      · next h1 =>
          split
          · next hp =>
              obtain ⟨e, s4, hloop⟩ := addIndexLoop_blocked g1
                (EdgeStoreShard.incrementRevision et g1 s).1 s2.lastInsertID
                s2.affectedRows it iv wrow hit hiv hexcl2 indices
                (EdgeStoreShard.incrementCount et g1 1 s2) hmem hrow2
              rw [hloop]
              exact ⟨e, _, rfl, rfl, rfl, rfl, rfl⟩
          · next hp => exact ⟨_, _, rfl, rfl, rfl, rfl, rfl⟩
      · next h1 =>
          split
          · next h2 =>
              split
              · next hp =>
                  obtain ⟨e, s4, hloop⟩ := addIndexLoop_blocked g1
                    (EdgeStoreShard.incrementRevision et g1 s).1 s2.lastInsertID
                    s2.affectedRows it iv wrow hit hiv hexcl2 indices
                    { s2 with lastAddWasOverwrite := true } hmem hrow2
                  rw [hloop]
                  exact ⟨e, _, rfl, rfl, rfl, rfl, rfl⟩
              · next hp => exact ⟨_, _, rfl, rfl, rfl, rfl, rfl⟩
          · next h2 =>
              obtain ⟨e, s4, hloop⟩ := addIndexLoop_blocked g1
                (EdgeStoreShard.incrementRevision et g1 s).1 s2.lastInsertID
                s2.affectedRows it iv wrow hit hiv hexcl2 indices
                s2 hmem hrow2
              rw [hloop]
              exact ⟨e, _, rfl, rfl, rfl, rfl, rfl⟩

/-- Concrete state: edge `(7,1,2)` at revision 1 with its index row
`(3, 9, 1, 1)`, stored meta revision 1. -/
def sC3 : ShardState :=
  { edges := [⟨7, 1, 2, 1, 1, "x"⟩], metas := [⟨7, 1, 1, 1⟩],
    index := [⟨3, 9, 1, 1⟩], colos := [],
    lastInsertID := 0, affectedRows := 0,
    lastAddWasOverwrite := false, inTx := false }

/-- C3 counterexample: a row already exists in `edgeindex` at `(3, 9)` — the
edge's own previous index entry — yet the overwrite `add` carrying the
unique-flagged `(3, 9)` succeeds: the index loop first deletes the old rows at
`(indextype, gid1, prev_revision)`, so the uniqueness probe sees zero rows and
the claim's "if any row already exists the add fails" is falsified. -/
theorem c3_unique_counterexample :
    (⟨3, 9, 1, 1⟩ : IndexRow) ∈ sC3.index
  ∧ (EdgeStoreShard.add 7 1 2 1 "y" [(3, 9, true)] true sC3).1
      = .ok ⟨7, 1, 2, 2, 1, "y"⟩ := by
  constructor
  · simp [sC3]
  · rfl

/-- Concrete state for the C3 witness: an `edgeindex` row at `(3, 9)` owned by
the unrelated parent 42, and no edges. -/
def sC3W : ShardState :=
  { edges := [], metas := [], index := [⟨3, 9, 42, 1⟩], colos := [],
    lastInsertID := 0, affectedRows := 0,
    lastAddWasOverwrite := false, inTx := false }

/-- Witness for the amended C3 on a concrete blocked insert. -/
theorem c3_unique_violation_rolls_back_witness :
    ∃ e s', EdgeStoreShard.add 7 1 2 1 "x" [(3, 9, true)] false sC3W = (.error e, s')
      ∧ s'.edges = sC3W.edges ∧ s'.metas = sC3W.metas
      ∧ s'.index = sC3W.index ∧ s'.colos = sC3W.colos :=
  c3_unique_violation_rolls_back 7 1 2 1 "x" [(3, 9, true)] false sC3W 3 9 ⟨3, 9, 42, 1⟩
    (by simp) (by simp [sC3W]) rfl rfl
    (fun old h => by simp [sC3W, findEdge] at h)

theorem addIndexLoop_flag (g1 revision prevRev affected : Nat) :
    ∀ (indices : List (Nat × Nat × Bool)) (s : ShardState),
      ((addIndexLoop g1 revision prevRev affected indices s).2).lastAddWasOverwrite
        = s.lastAddWasOverwrite := by
  intro indices
  induction indices with
  | nil => intro s; rfl
  | cons x rest ih =>
      obtain ⟨jt, jv, ju⟩ := x
      intro s
      simp only [addIndexLoop]
      by_cases hb : (ju && (countIndexRows
          (if affected == 2 then runDeleteIndexSQL jt g1 prevRev s else s).index jt jv != 0)) = true
      · rw [if_pos hb]
        by_cases ha : (affected == 2) = true
        · rw [if_pos ha]; rfl
        · rw [if_neg ha]
      · rw [if_neg hb]
        rw [ih]
        by_cases ha : (affected == 2) = true
        · rw [if_pos ha]; rfl
        · rw [if_neg ha]; rfl

theorem addStatement_error (row : EdgeRow) (s1 : ShardState) (overwrite : Bool) (e : PyErr)
    (hnone : findEdge s1.edges row.edgetype row.gid1 row.gid2 = none)
    (h : (if overwrite then Except.ok (runAddOverwriteSQL row s1) else runAddSQL row s1)
          = Except.error e) : False := by
  cases overwrite with
  | true => simp only [if_true] at h; cases h
  | false =>
      simp only [Bool.false_eq_true, if_false] at h
      unfold runAddSQL at h
      rw [hnone] at h
      cases h

theorem addStatement_insert (row : EdgeRow) (s1 : ShardState) (overwrite : Bool)
    (s2 : ShardState)
    (hnone : findEdge s1.edges row.edgetype row.gid1 row.gid2 = none)
    (h : (if overwrite then Except.ok (runAddOverwriteSQL row s1) else runAddSQL row s1)
          = Except.ok s2) :
    s2 = { s1 with edges := row :: s1.edges,
                   lastInsertID := row.revision, affectedRows := 1 } := by
  cases overwrite with
  | false =>
      simp only [Bool.false_eq_true, if_false] at h
      unfold runAddSQL at h
      rw [hnone] at h
      cases h
      rfl
  | true =>
      simp only [if_true] at h
      cases h
      unfold runAddOverwriteSQL
      rw [hnone]

theorem add_flag_cases (et g1 g2 enc : Nat) (dat : String)
    (indices : List (Nat × Nat × Bool)) (overwrite : Bool) (s : ShardState) :
    ((EdgeStoreShard.add et g1 g2 enc dat indices overwrite s).2).lastAddWasOverwrite
        = s.lastAddWasOverwrite
  ∨ ((EdgeStoreShard.add et g1 g2 enc dat indices overwrite s).2).lastAddWasOverwrite
        = true := by
  obtain ⟨hedges1, hindex1, hcolos1, hflag1⟩ := incRev_state_tables et g1 s
  simp only [EdgeStoreShard.add]
  split
  · exact Or.inl hflag1
  · next s2 heq =>
      obtain ⟨hidx2, hmet2, hcol2, hflag2, haff2⟩ := addStatement_spec _ _ _ _ heq
      have hs2 : s2.lastAddWasOverwrite = s.lastAddWasOverwrite := hflag2.trans hflag1
      split
      · next h1 =>
          split
          · next hp =>
              split
              · next e s4 hloop =>
                  have h5 := congrArg (fun p : Except PyErr Unit × ShardState =>
                    p.2.lastAddWasOverwrite) hloop
                  have h6 := addIndexLoop_flag g1 (EdgeStoreShard.incrementRevision et g1 s).1
                    s2.lastInsertID s2.affectedRows indices
                    (EdgeStoreShard.incrementCount et g1 1 s2)
                  exact Or.inl ((h5.symm.trans h6).trans hs2)
              · next u s4 hloop =>
                  have h5 := congrArg (fun p : Except PyErr Unit × ShardState =>
                    p.2.lastAddWasOverwrite) hloop
                  have h6 := addIndexLoop_flag g1 (EdgeStoreShard.incrementRevision et g1 s).1
                    s2.lastInsertID s2.affectedRows indices
                    (EdgeStoreShard.incrementCount et g1 1 s2)
                  exact Or.inl ((h5.symm.trans h6).trans hs2)
          · next hp => exact Or.inl hs2
      · next h1 =>
          split
          · next h2 =>
              split
              · next hp =>
                  split
                  · next e s4 hloop =>
                      have h5 := congrArg (fun p : Except PyErr Unit × ShardState =>
                        p.2.lastAddWasOverwrite) hloop
                      have h6 := addIndexLoop_flag g1
                        (EdgeStoreShard.incrementRevision et g1 s).1
                        s2.lastInsertID s2.affectedRows indices
                        { s2 with lastAddWasOverwrite := true }
                      exact Or.inr (h5.symm.trans h6)
                  · next u s4 hloop =>
                      have h5 := congrArg (fun p : Except PyErr Unit × ShardState =>
                        p.2.lastAddWasOverwrite) hloop
                      have h6 := addIndexLoop_flag g1
                        (EdgeStoreShard.incrementRevision et g1 s).1
                        s2.lastInsertID s2.affectedRows indices
                        { s2 with lastAddWasOverwrite := true }
                      exact Or.inr (h5.symm.trans h6)
              · next hp => exact Or.inr rfl
          · next h2 =>
              split
              · next e s4 hloop =>
                  have h5 := congrArg (fun p : Except PyErr Unit × ShardState =>
                    p.2.lastAddWasOverwrite) hloop
                  have h6 := addIndexLoop_flag g1 (EdgeStoreShard.incrementRevision et g1 s).1
                    s2.lastInsertID s2.affectedRows indices s2
                  exact Or.inl ((h5.symm.trans h6).trans hs2)
              · next u s4 hloop =>
                  have h5 := congrArg (fun p : Except PyErr Unit × ShardState =>
                    p.2.lastAddWasOverwrite) hloop
                  have h6 := addIndexLoop_flag g1 (EdgeStoreShard.incrementRevision et g1 s).1
                    s2.lastInsertID s2.affectedRows indices s2
                  exact Or.inl ((h5.symm.trans h6).trans hs2)

theorem add_flag_insert_path (et g1 g2 enc : Nat) (dat : String)
    (indices : List (Nat × Nat × Bool)) (overwrite : Bool) (s : ShardState)
    (h : findEdge s.edges et g1 g2 = none) :
    ((EdgeStoreShard.add et g1 g2 enc dat indices overwrite s).2).lastAddWasOverwrite
      = s.lastAddWasOverwrite := by
  obtain ⟨hedges1, hindex1, hcolos1, hflag1⟩ := incRev_state_tables et g1 s
  have hnone : findEdge ((EdgeStoreShard.incrementRevision et g1 s).2).edges et g1 g2
      = none := by
    rw [hedges1]; exact h
  simp only [EdgeStoreShard.add]
  split
  · next e heq => exact (addStatement_error _ _ _ _ hnone heq).elim
  · next s2 heq =>
      have hs2 := addStatement_insert _ _ _ _ hnone heq
      have haff1 : s2.affectedRows = 1 := by rw [hs2]
      have hfl2 : s2.lastAddWasOverwrite
          = ((EdgeStoreShard.incrementRevision et g1 s).2).lastAddWasOverwrite := by
        rw [hs2]
      have hreg : s2.lastInsertID = (EdgeStoreShard.incrementRevision et g1 s).1 := by
        rw [hs2]
      split
      · next h1 =>
          split
          · next hp =>
              split
              · next e s4 hloop =>
                  have h5 := congrArg (fun p : Except PyErr Unit × ShardState =>
                    p.2.lastAddWasOverwrite) hloop
                  have h6 := addIndexLoop_flag g1 (EdgeStoreShard.incrementRevision et g1 s).1
                    s2.lastInsertID s2.affectedRows indices
                    (EdgeStoreShard.incrementCount et g1 1 s2)
                  exact (h5.symm.trans h6).trans (hfl2.trans hflag1)
              · next u s4 hloop =>
                  have h5 := congrArg (fun p : Except PyErr Unit × ShardState =>
                    p.2.lastAddWasOverwrite) hloop
                  have h6 := addIndexLoop_flag g1 (EdgeStoreShard.incrementRevision et g1 s).1
                    s2.lastInsertID s2.affectedRows indices
                    (EdgeStoreShard.incrementCount et g1 1 s2)
                  exact (h5.symm.trans h6).trans (hfl2.trans hflag1)
          · next hp =>
              exact absurd (by rw [hreg]; simp) hp
      · next h1 =>
          exact absurd (by rw [haff1]; rfl) h1

/-- C10: the shard's `lastAddWasOverwrite` flag is sticky: an insert-path
`add` (key absent) leaves it untouched, any `add` leaves it unchanged or sets
it to `true` — the code never writes `false` after `__init__` — so once an
overwrite set it, every later `add` through that shard still reports `true`,
and the facade's mirroring assignment copies that `true`. -/
theorem c10_lastAddWasOverwrite_sticky (et g1 g2 enc : Nat) (dat : String)
    (indices : List (Nat × Nat × Bool)) (overwrite : Bool) (s : ShardState) :
    (s.lastAddWasOverwrite = true →
        ((EdgeStoreShard.add et g1 g2 enc dat indices overwrite s).2).lastAddWasOverwrite
          = true)
  ∧ (findEdge s.edges et g1 g2 = none →
        ((EdgeStoreShard.add et g1 g2 enc dat indices overwrite s).2).lastAddWasOverwrite
          = s.lastAddWasOverwrite)
  ∧ (∀ f : Bool, EdgeStore.mirrorAddFlag f true = true) := by
  refine ⟨?_, add_flag_insert_path et g1 g2 enc dat indices overwrite s, fun f => rfl⟩
  intro hf
  rcases add_flag_cases et g1 g2 enc dat indices overwrite s with h | h
  · rw [h, hf]
  · exact h

/-- Concrete shard state whose overwrite flag is already set. -/
def sC10 : ShardState :=
  { edges := [], metas := [], index := [], colos := [],
    lastInsertID := 0, affectedRows := 0,
    lastAddWasOverwrite := true, inTx := false }

/-- Witness for C10 on a concrete insert-path add. -/
theorem c10_lastAddWasOverwrite_sticky_witness :
    ((EdgeStoreShard.add 7 1 2 1 "x" [] false sC10).2).lastAddWasOverwrite = true
  ∧ ((EdgeStoreShard.add 7 1 2 1 "x" [] false sC10).2).lastAddWasOverwrite
      = sC10.lastAddWasOverwrite :=
  ⟨(c10_lastAddWasOverwrite_sticky 7 1 2 1 "x" [] false sC10).1 rfl,
   (c10_lastAddWasOverwrite_sticky 7 1 2 1 "x" [] false sC10).2.1 rfl⟩

theorem getColoShardHostIndex_errs (numHosts colo : Nat) :
    EdgeStore.getColoShardHostIndex numHosts colo = .error .attributeError := rfl

/-- C4: facade routing never reaches the `colo % N` shard computation —
`_getColoShard` reads `self.NUM_HOSTS`, an attribute that does not exist (the
class attribute is `_NUM_HOSTS`), so every routed facade operation raises
`AttributeError` for every colocation instead of selecting the shard at
`colo(gid1) mod N`. -/
theorem c4_getColoShard_attribute_error (numHosts colo : Nat) :
    EdgeStore.getColoShardHostIndex numHosts colo = .error .attributeError
  ∧ EdgeStore.instanceAttrs.contains "NUM_HOSTS" = false
  ∧ EdgeStore.instanceAttrs.contains "_NUM_HOSTS" = true :=
  ⟨getColoShardHostIndex_errs numHosts colo, rfl, rfl⟩

/-- Concrete state for C5: edge `(7,1,2)` at revision 1, no index entry for
parent 1; the only `edgeindex` row at `(3, 5)` belongs to parent 99 and
happens to carry revision 1. -/
def sC5 : ShardState :=
  { edges := [⟨7, 1, 2, 1, 1, "x"⟩], metas := [], index := [⟨3, 5, 99, 1⟩],
    colos := [], lastInsertID := 0, affectedRows := 0,
    lastAddWasOverwrite := false, inTx := false }

/-- C5: `query` with both `gid1` and `indextype` set joins `edgeindex` to
`edgedata` on revision alone — `_listIndexSQL` never constrains
`edgeindex.gid1` — so another parent's index row with an equal revision
number selects this parent's edge: the query returns parent 1's edge although
parent 1 owns no index row at all, contradicting "exactly the edges whose
current index entry lies in the range". -/
theorem c5_listIndex_cross_parent_leak :
    EdgeStoreShard.query 7 (some 3) (some (0, 10)) (some 1) sC5
      = .ok [⟨7, 1, 2, 1, 1, "x"⟩]
  ∧ ∀ ix ∈ sC5.index, ix.gid1 ≠ 1 := by
  constructor
  · rfl
  · decide

/-- C7: `EdgeStoreShard.generateGid` raises `NameError` on every call — the
bare name `_generateGidSQL` in its body does not resolve at module scope — so
it never returns a gid; the upsert that the unreachable SQL describes would,
started at `start = 1` on a fresh colocation, put 1 and then 2 in the
register, and `(C << 32) + 1` has colocation `C`. -/
theorem c7_generateGid_name_error (colo start : Nat) (s : ShardState)
    (h : findColo s.colos colo = none) :
    EdgeStoreShard.generateGid colo start s = (.error .nameError, s)
  ∧ (runGenerateGidSQL colo 1 s).lastInsertID = 1
  ∧ (runGenerateGidSQL colo 1 (runGenerateGidSQL colo 1 s)).lastInsertID = 2
  ∧ EdgeStore.colo ((colo <<< 32) + (runGenerateGidSQL colo 1 s).lastInsertID) = colo := by
  refine ⟨rfl, ?_, ?_, ?_⟩
  · simp [runGenerateGidSQL, h]
  · simp [runGenerateGidSQL, h, findColo]
  · simp only [runGenerateGidSQL, h]
    simp only [EdgeStore.colo, Nat.shiftLeft_eq, Nat.shiftRight_eq_div_pow]
    omega

/-- Witness for C7 on a concrete fresh shard. -/
theorem c7_generateGid_name_error_witness :
    EdgeStoreShard.generateGid 5 1 shardState0 = (.error .nameError, shardState0)
  ∧ (runGenerateGidSQL 5 1 shardState0).lastInsertID = 1
  ∧ (runGenerateGidSQL 5 1 (runGenerateGidSQL 5 1 shardState0)).lastInsertID = 2
  ∧ EdgeStore.colo ((5 <<< 32) + (runGenerateGidSQL 5 1 shardState0).lastInsertID) = 5 :=
  c7_generateGid_name_error 5 1 shardState0 rfl

/-- C8: `getInstance` is not a per-name singleton: on a fresh registry it
constructs an `EdgeStore` but never stores it in `_instances`, so a second
call with the same dbname constructs a different instance. -/
theorem c8_getInstance_not_singleton :
    (EdgeStore.getInstance "edgestore" registry0).1
      ≠ (EdgeStore.getInstance "edgestore"
          (EdgeStore.getInstance "edgestore" registry0).2).1
  ∧ (EdgeStore.getInstance "edgestore" registry0).2.instances
      = registry0.instances := by
  constructor
  · decide
  · rfl

/-- C9: a `lock(colo)` entered while `colo` is already in `_locked_colos` is
exactly the body run with `None` — no transaction is opened and no lock probe
runs beyond whatever the body itself does — and an outer entry leaves the
locked-colocation set, the transaction counter and the shard state unchanged
on its exit path. -/
theorem c9_lock_reentrant_noop {α : Type} (numHosts colo : Nat)
    (body : Option Nat → FacadeState → Except PyErr α × FacadeState)
    (st : FacadeState) :
    (st.lockedColos.contains colo = true →
        EdgeStore.lock numHosts colo body st = body none st)
  ∧ (st.lockedColos.contains colo = false →
        ((EdgeStore.lock numHosts colo body st).2).lockedColos = st.lockedColos
      ∧ (EdgeStore.lock numHosts colo body st).2.txCount = st.txCount
      ∧ (EdgeStore.lock numHosts colo body st).2.shard = st.shard) := by
  constructor
  · intro h
    simp only [EdgeStore.lock]
    rw [if_pos h]
  · intro h
    have hne : ¬(st.lockedColos.contains colo = true) := by rw [h]; simp
    simp only [EdgeStore.lock]
    rw [if_neg hne]
    refine ⟨?_, ?_, ?_⟩ <;>
      simp [getColoShardHostIndex_errs, List.erase_cons_head]

/-- Concrete facade states for the C9 witness. -/
def facadeSt5 : FacadeState := { lockedColos := [5], shard := shardState0, txCount := 0 }

/-- Facade state with no colocation locked. -/
def facadeSt0 : FacadeState := { lockedColos := [], shard := shardState0, txCount := 0 }

/-- A trivial body for the C9 witness. -/
def lockBodyW : Option Nat → FacadeState → Except PyErr Nat × FacadeState :=
  fun _ st => (.ok 0, st)

/-- Witness for C9 at concrete states. -/
theorem c9_lock_reentrant_noop_witness :
    EdgeStore.lock 2 5 lockBodyW facadeSt5 = lockBodyW none facadeSt5
  ∧ ((EdgeStore.lock 2 7 lockBodyW facadeSt0).2).lockedColos = facadeSt0.lockedColos :=
  ⟨(c9_lock_reentrant_noop 2 5 lockBodyW facadeSt5).1 rfl,
   ((c9_lock_reentrant_noop 2 7 lockBodyW facadeSt0).2 rfl).1⟩
